import Mathlib

/-!
# MarkVault server: a shallow embedding of src/index.js

The source is a single-file Express/Mongoose backend: user authentication
(signup, login, refresh, logout, logout-all) and per-user bookmark CRUD.
This file embeds the data model and the route handlers as pure Lean
functions over an explicit store (`DB`) and proves the specified
properties about them.

Modelling conventions:
  * MongoDB ObjectIds are Lean `String`s; time is a `Nat` counted in
    minutes (so the jwt `expiresIn` arguments "15m" and "7d" become the
    numbers 15 and 10080).
  * A signed JWT is modelled as a record of its payload fields, the
    secret it was signed with and its expiry; `jwt.verify` checks the
    secret and the expiry.  Access tokens additionally get a concrete
    injective wire encoding (`encodeAccessToken`) because the auth
    middleware receives them as substrings of the `Authorization`
    header; refresh tokens only travel through JSON bodies, which
    `express.json()` parses, so they stay structural.
  * `bcrypt.hash` is salted and deterministic given the salt, so a
    stored hash is a record of the salt and the hashed plaintext;
    `bcrypt.compare` checks the plaintext against the hash.
  * `Model.findOne(filter)` returns the first matching document in
    store order; `doc.save()` writes the document back by `_id`
    (`saveUser`); creating a document appends it to the store.
-/

namespace MarkVault

/-- Payload and signature data of an access-token JWT: `jwt.sign({ userId:
user._id, email: user.email }, process.env.JWT_SECRET, { expiresIn: "15m" })`
(src/index.js, `generateAccessToken`). -/
structure AccessTok where
  userId : String
  email : String
  secret : String
  exp : Nat
deriving DecidableEq

/-- Payload and signature data of a refresh-token JWT: `jwt.sign({ userId:
user._id }, process.env.REFRESH_SECRET, { expiresIn: "7d" })`
(src/index.js, `generateRefreshToken`). -/
structure RefreshTok where
  userId : String
  secret : String
  exp : Nat
deriving DecidableEq

/-- A stored bcrypt hash: the salt and the plaintext it hashes.
`bcrypt.compare` recovers exactly "the plaintexts agree". -/
structure BcryptHash where
  salt : Nat
  plain : String
deriving DecidableEq

/-- `bcrypt.hash(password, 10)` with an explicit salt. -/
def bcryptHash (password : String) (salt : Nat) : BcryptHash :=
  { salt := salt, plain := password }

/-- `bcrypt.compare(password, storedHash)`. -/
def bcryptCompare (password : String) (h : BcryptHash) : Bool :=
  h.plain == password

/-- The `User` mongoose schema: username, email, password (a bcrypt hash),
and the list of currently stored refresh tokens (default `[]`). -/
structure User where
  id : String
  username : String
  email : String
  password : BcryptHash
  refreshTokens : List RefreshTok
deriving DecidableEq

/-- The `Bookmark` mongoose schema: title, url, category, tags (default
`[]`), notes, and the owning user's id.  The schema passes no `timestamps`
option, so documents carry no `createdAt` field. -/
structure Bookmark where
  id : String
  title : String
  url : String
  category : String
  tags : List String
  notes : String
  userId : String
deriving DecidableEq

/-- The persistent store: the `users` and `bookmarks` collections, in
insertion (natural) order. -/
structure DB where
  users : List User
  bookmarks : List Bookmark
deriving DecidableEq

/-- The environment variables the handlers read: `JWT_SECRET` and
`REFRESH_SECRET`, each possibly absent. -/
structure Env where
  jwtSecret : Option String
  refreshSecret : Option String
deriving DecidableEq

/-- `user.save()`: write the (possibly modified) user document back into
the store, matching on `_id`. -/
def saveUser (db : DB) (u : User) : DB :=
  { db with users := db.users.map (fun v => if v.id = u.id then u else v) }

/-! ## Wire format of access tokens

The auth middleware reads the token out of the `Authorization` header
string, so access tokens need a concrete string encoding.  The JWT wire
format itself (base64 segments) is irrelevant to the properties; all
that matters is that encoding is injective and that decoding inverts it.
We separate the fields with the NUL character (which never occurs in an
id, email or secret) and write the expiry in unary. -/

/-- The field separator of the wire encoding. -/
def sepChar : Char := Char.ofNat 0

/-- Unary numeral used for the expiry field of the wire encoding. -/
def natUnary (n : Nat) : List Char := List.replicate n 'I'

/-- Split a character list at every occurrence of `sep` (the model of
JavaScript's `String.prototype.split` with a one-character separator). -/
def splitOnChar (sep : Char) : List Char → List (List Char)
  | [] => [[]]
  | c :: cs =>
    if c = sep then
      [] :: splitOnChar sep cs
    else
      match splitOnChar sep cs with
      | [] => [[c]]
      | g :: gs => (c :: g) :: gs

/-- Serialise an access token to its wire string. -/
def encodeAccessToken (t : AccessTok) : String :=
  String.mk (t.userId.data ++ sepChar :: (t.email.data ++ sepChar ::
    (t.secret.data ++ sepChar :: natUnary t.exp)))

/-- Parse a wire string back into an access token. -/
def decodeAccessToken (s : String) : Option AccessTok :=
  match splitOnChar sepChar s.data with
  | [a, b, c, d] =>
    if d.all (fun ch => ch = 'I') then
      some { userId := String.mk a, email := String.mk b,
             secret := String.mk c, exp := d.length }
    else none
  | _ => none

theorem splitOnChar_ne_nil (sep : Char) (l : List Char) :
    splitOnChar sep l ≠ [] := by
  cases l with
  | nil => simp [splitOnChar]
  | cons c cs =>
    simp only [splitOnChar]
    split
    · simp
    · split
      · simp
      · simp

theorem splitOnChar_of_not_mem (sep : Char) (l : List Char)
    (h : sep ∉ l) : splitOnChar sep l = [l] := by
  induction l with
  | nil => rfl
  | cons c cs ih =>
    have hc : ¬ c = sep := fun hc => h (hc ▸ List.mem_cons_self c cs)
    have hcs : sep ∉ cs := fun hm => h (List.mem_cons_of_mem c hm)
    simp only [splitOnChar, if_neg hc, ih hcs]

theorem splitOnChar_append (sep : Char) (x rest : List Char)
    (h : sep ∉ x) :
    splitOnChar sep (x ++ sep :: rest) = x :: splitOnChar sep rest := by
  induction x with
  | nil => simp [splitOnChar]
  | cons c cs ih =>
    have hc : ¬ c = sep := fun hc => h (hc ▸ List.mem_cons_self c cs)
    have hcs : sep ∉ cs := fun hm => h (List.mem_cons_of_mem c hm)
    simp only [List.cons_append, splitOnChar, if_neg hc]
    rw [show cs.append (sep :: rest) = cs ++ sep :: rest from rfl, ih hcs]

theorem sepChar_not_mem_natUnary (n : Nat) : sepChar ∉ natUnary n := by
  intro hm
  have h := List.eq_of_mem_replicate hm
  exact absurd h (by decide)

theorem decode_encode (t : AccessTok)
    (h1 : sepChar ∉ t.userId.data) (h2 : sepChar ∉ t.email.data)
    (h3 : sepChar ∉ t.secret.data) :
    decodeAccessToken (encodeAccessToken t) = some t := by
  unfold decodeAccessToken encodeAccessToken
  rw [show (String.mk (t.userId.data ++ sepChar :: (t.email.data ++ sepChar ::
      (t.secret.data ++ sepChar :: natUnary t.exp)))).data =
      t.userId.data ++ sepChar :: (t.email.data ++ sepChar ::
      (t.secret.data ++ sepChar :: natUnary t.exp)) from rfl]
  rw [splitOnChar_append sepChar _ _ h1, splitOnChar_append sepChar _ _ h2,
    splitOnChar_append sepChar _ _ h3,
    splitOnChar_of_not_mem sepChar _ (sepChar_not_mem_natUnary t.exp)]
  have hall : (natUnary t.exp).all (fun ch => ch = 'I') = true := by
    simp [natUnary, List.all_eq_true, List.mem_replicate]
  cases t with
  | mk uid em sec ex =>
    simp only [natUnary] at hall ⊢
    rw [if_pos hall, List.length_replicate]

/-! ## Token service (src/index.js: generateAccessToken, generateRefreshToken) -/

/-- `generateAccessToken(user)`: throws when `JWT_SECRET` is missing,
otherwise signs `{ userId, email }` with it, expiring in 15 minutes. -/
def generateAccessToken (env : Env) (now : Nat) (user : User) :
    Except String AccessTok :=
  match env.jwtSecret with
  | none => .error "Missing JWT_SECRET in .env file"
  | some k => .ok { userId := user.id, email := user.email, secret := k,
                    exp := now + 15 }

/-- `generateRefreshToken(user)`: throws when `REFRESH_SECRET` is missing,
otherwise signs `{ userId }` with it (7 days = 10080 minutes), pushes the
token onto `user.refreshTokens`, saves the user and returns the token. -/
def generateRefreshToken (env : Env) (now : Nat) (db : DB) (user : User) :
    Except String (RefreshTok × DB) :=
  match env.refreshSecret with
  | none => .error "Missing REFRESH_SECRET in .env file"
  | some k =>
    let t : RefreshTok := { userId := user.id, secret := k, exp := now + 10080 }
    .ok (t, saveUser db { user with refreshTokens := user.refreshTokens ++ [t] })

/-- `jwt.verify(tokenString, process.env.JWT_SECRET)` as used by the auth
middleware: errors when the secret is absent, the string is not a token,
the signature does not match or the token is expired; otherwise yields the
decoded `{ userId, email }` payload. -/
def verifyAccessToken (secret : Option String) (now : Nat) (s : String) :
    Option (String × String) :=
  match secret with
  | none => none
  | some k =>
    match decodeAccessToken s with
    | none => none
    | some t => if t.secret = k ∧ now < t.exp then some (t.userId, t.email)
                else none

/-- `jwt.verify(refreshToken, process.env.REFRESH_SECRET)` as used by the
refresh route: signature and expiry check. -/
def verifyRefreshToken (secret : Option String) (now : Nat) (t : RefreshTok) :
    Bool :=
  match secret with
  | none => false
  | some k => t.secret == k && decide (now < t.exp)

/-! ## Auth gate (src/index.js: authenticateUser middleware) -/

/-- `req.headers.authorization?.split(" ")[1]`, with the subsequent
`if (!token)` guard: `none` when the header is absent, has no second
space-separated part, or that part is the empty string. -/
def extractBearerToken (header : Option String) : Option String :=
  match header with
  | none => none
  | some h =>
    match (splitOnChar ' ' h.data).get? 1 with
    | none => none
    | some t => if t = [] then none else some (String.mk t)

/-- Outcome of the `authenticateUser` middleware. -/
inductive AuthResult where
  | noToken
  | invalidToken
  | authenticated (userId : String) (email : String)
deriving DecidableEq

/-- The HTTP status the middleware responds with, `none` when it calls
`next()` and the request proceeds to the handler. -/
def authStatus : AuthResult → Option Nat
  | .noToken => some 401
  | .invalidToken => some 403
  | .authenticated _ _ => none

/-- The `authenticateUser` middleware: extract the bearer token (401 when
absent), verify it (403 when invalid or expired), else attach the decoded
`{ userId, email }` and proceed.  The store is threaded through unchanged
to state that the middleware has no side effects on it. -/
def authenticateUser (env : Env) (now : Nat) (db : DB)
    (header : Option String) : AuthResult × DB :=
  match extractBearerToken header with
  | none => (.noToken, db)
  | some s =>
    match verifyAccessToken env.jwtSecret now s with
    | none => (.invalidToken, db)
    | some (uid, em) => (.authenticated uid em, db)

/-! ## Auth routes (src/index.js: signup, login, refresh, logout, logout-all) -/

/-- Outcome of `POST /api/auth/signup`. -/
inductive SignupResult where
  | missingFields
  | usernameTaken
  | emailTaken
  | passwordUsed
  | created (accessToken : AccessTok) (refreshToken : RefreshTok)
  | serverError (msg : String)
deriving DecidableEq

/-- HTTP status of each signup outcome. -/
def signupStatus : SignupResult → Nat
  | .missingFields => 400
  | .usernameTaken => 400
  | .emailTaken => 400
  | .passwordUsed => 400
  | .created _ _ => 201
  | .serverError _ => 500

/-- The signup handler after the duplicate-credentials check: scan every
existing user and reject when `bcrypt.compare` matches any stored hash;
otherwise hash the password, insert the new user (empty token list),
issue both tokens and return 201. -/
def signupCont (env : Env) (now salt : Nat) (newId : String) (db : DB)
    (username email password : String) : SignupResult × DB :=
  if db.users.any (fun u => bcryptCompare password u.password) then
    (.passwordUsed, db)
  else
    let newUser : User := { id := newId, username := username, email := email,
                            password := bcryptHash password salt,
                            refreshTokens := [] }
    let db1 : DB := { db with users := db.users ++ [newUser] }
    match generateAccessToken env now newUser with
    | .error m => (.serverError m, db1)
    | .ok a =>
      match generateRefreshToken env now db1 newUser with
      | .error m => (.serverError m, db1)
      | .ok (rt, db2) => (.created a rt, db2)

/-- `POST /api/auth/signup`: require all three fields (JavaScript falsiness:
a missing field and the empty string coincide), reject a taken username or
email (`findOne` on `$or`), then continue with the password scan and user
creation (`signupCont`). -/
def signup (env : Env) (now salt : Nat) (newId : String) (db : DB)
    (username email password : String) : SignupResult × DB :=
  if username = "" ∨ email = "" ∨ password = "" then (.missingFields, db)
  else
    match db.users.find? (fun u => u.username == username || u.email == email) with
    | some ex =>
      if ex.username == username then (.usernameTaken, db)
      else if ex.email == email then (.emailTaken, db)
      else signupCont env now salt newId db username email password
    | none => signupCont env now salt newId db username email password

/-- Outcome of `POST /api/auth/login`. -/
inductive LoginResult where
  | noUser
  | badPassword
  | ok (accessToken : AccessTok) (refreshToken : RefreshTok)
  | serverError (msg : String)
deriving DecidableEq

/-- `POST /api/auth/login`: find the user by email (400 when none),
compare the password (400 on mismatch), then issue an access token and a
refresh token (the latter appended to the user's collection and saved). -/
def login (env : Env) (now : Nat) (db : DB) (email password : String) :
    LoginResult × DB :=
  match db.users.find? (fun u => u.email == email) with
  | none => (.noUser, db)
  | some u =>
    if !(bcryptCompare password u.password) then (.badPassword, db)
    else
      match generateAccessToken env now u with
      | .error m => (.serverError m, db)
      | .ok a =>
        match generateRefreshToken env now db u with
        | .error m => (.serverError m, db)
        | .ok (rt, db2) => (.ok a rt, db2)

/-- Outcome of `POST /api/auth/refresh`. -/
inductive RefreshResult where
  | noToken
  | invalidToken
  | ok (accessToken : AccessTok)
  | serverError (msg : String)
deriving DecidableEq

/-- HTTP status of each refresh outcome. -/
def refreshStatus : RefreshResult → Nat
  | .noToken => 401
  | .invalidToken => 403
  | .ok _ => 200
  | .serverError _ => 500

/-- `POST /api/auth/refresh`: 401 when the body carries no token, 403 when
no user's `refreshTokens` contains it (`findOne({ refreshTokens: token })`),
403 when `jwt.verify` fails, else respond with a fresh access token only. -/
def refresh (env : Env) (now : Nat) (db : DB) (body : Option RefreshTok) :
    RefreshResult × DB :=
  match body with
  | none => (.noToken, db)
  | some rt =>
    match db.users.find? (fun u => u.refreshTokens.contains rt) with
    | none => (.invalidToken, db)
    | some u =>
      if verifyRefreshToken env.refreshSecret now rt then
        match generateAccessToken env now u with
        | .error m => (.serverError m, db)
        | .ok a => (.ok a, db)
      else (.invalidToken, db)

/-- Outcome of `POST /api/auth/logout`. -/
inductive LogoutResult where
  | invalidToken
  | ok
deriving DecidableEq

/-- `POST /api/auth/logout`: find the owning user by membership lookup
(403 when none), drop every entry `!==` the given token via `filter`,
and save the user. -/
def logout (db : DB) (rt : RefreshTok) : LogoutResult × DB :=
  match db.users.find? (fun u => u.refreshTokens.contains rt) with
  | none => (.invalidToken, db)
  | some u =>
    (.ok, saveUser db
      { u with refreshTokens := u.refreshTokens.filter (fun t => t != rt) })

/-- Outcome of `POST /api/auth/logout-all`. -/
inductive LogoutAllResult where
  | userNotFound
  | ok
deriving DecidableEq

/-- `POST /api/auth/logout-all` (after the auth gate): find the
authenticated user by id (403 when none), clear `refreshTokens`, save. -/
def logoutAll (db : DB) (userId : String) : LogoutAllResult × DB :=
  match db.users.find? (fun u => u.id == userId) with
  | none => (.userNotFound, db)
  | some u => (.ok, saveUser db { u with refreshTokens := [] })

/-! ## Bookmark routes (src/index.js: POST/GET/DELETE /api/bookmarks) -/

/-- A JSON value as it appears in a bookmark request body: a string, an
array of strings (tags), or an ObjectId reference. -/
inductive JVal where
  | str : String → JVal
  | strs : List String → JVal
  | oid : String → JVal
deriving DecidableEq

/-- A JavaScript object as an ordered key/value list; with object spread,
a later occurrence of a key overrides an earlier one, so lookup takes the
last binding. -/
def objGet (o : List (String × JVal)) (k : String) : Option JVal :=
  (o.reverse.find? (fun p => p.1 == k)).map (fun p => p.2)

/-- Read a string-valued field of the object (mongoose leaves an absent
or non-string path unset; the model uses `""` for unset). -/
def getStr (o : List (String × JVal)) (k : String) : String :=
  match objGet o k with
  | some (.str s) => s
  | _ => ""

/-- Read the tags array of the object (schema default `[]`). -/
def getStrs (o : List (String × JVal)) (k : String) : List String :=
  match objGet o k with
  | some (.strs l) => l
  | _ => []

/-- Read an ObjectId-valued field of the object. -/
def getOid (o : List (String × JVal)) (k : String) : Option String :=
  match objGet o k with
  | some (.oid v) => some v
  | _ => none

/-- `new Bookmark(obj)` followed by `save()`-side validation: the schema
reads its paths out of the object; `userId` is `required`, so a document
without it fails validation and nothing is stored. -/
def bookmarkFromObj (newId : String) (o : List (String × JVal)) :
    Option Bookmark :=
  match getOid o "userId" with
  | none => none
  | some uid =>
    some { id := newId, title := getStr o "title", url := getStr o "url",
           category := getStr o "category", tags := getStrs o "tags",
           notes := getStr o "notes", userId := uid }

/-- `POST /api/bookmarks` (after the auth gate):
`new Bookmark({ ...req.body, userId: req.user.userId })` then `save()` —
the spread object is the body with a `userId` binding appended (appended
last, so it overrides any `userId` the body carried), and saving appends
the document to the store. -/
def createBookmark (db : DB) (newId : String) (authUserId : String)
    (body : List (String × JVal)) : Option (Bookmark × DB) :=
  (bookmarkFromObj newId (body ++ [("userId", JVal.oid authUserId)])).map
    (fun b => (b, { db with bookmarks := db.bookmarks ++ [b] }))

/-- The `createdAt` path of a stored bookmark.  The schema declares
title, url, category, tags, notes and userId and passes no `timestamps`
option, so no document has a `createdAt` value. -/
def createdAt (_ : Bookmark) : Option Nat := none

/-- The sort key comparison of `.sort({ createdAt: -1 })`: `a` is placed
before `b` exactly when `a`'s key is strictly greater (missing values
compare lowest, and equal — in particular both-missing — keys leave the
documents in their store order). -/
def createdAtGt : Option Nat → Option Nat → Bool
  | some x, some y => decide (y < x)
  | some _, none => true
  | none, _ => false

/-- Insert one document into an already sorted (descending) run, after
every document whose key is greater than or equal to its own. -/
def insertByCreatedAtDesc (b : Bookmark) :
    List Bookmark → List Bookmark
  | [] => [b]
  | c :: l =>
    if createdAtGt (createdAt b) (createdAt c) then b :: c :: l
    else c :: insertByCreatedAtDesc b l

/-- `.sort({ createdAt: -1 })` over a result list: a stable descending
sort on the `createdAt` key. -/
def sortByCreatedAtDesc (l : List Bookmark) : List Bookmark :=
  l.foldl (fun acc b => insertByCreatedAtDesc b acc) []

/-- `GET /api/bookmarks` (after the auth gate):
`Bookmark.find({ userId: req.user.userId }).sort({ createdAt: -1 })`. -/
def listBookmarks (db : DB) (authUserId : String) : List Bookmark :=
  sortByCreatedAtDesc (db.bookmarks.filter (fun b => b.userId == authUserId))

/-- Outcome of `DELETE /api/bookmarks/:id`. -/
inductive DeleteResult where
  | notFound
  | deleted
deriving DecidableEq

/-- HTTP status of each delete outcome. -/
def deleteStatus : DeleteResult → Nat
  | .notFound => 404
  | .deleted => 200

/-- Response message of each delete outcome. -/
def deleteMessage : DeleteResult → String
  | .notFound => "Bookmark not found or unauthorized"
  | .deleted => "Bookmark deleted successfully"

/-- `DELETE /api/bookmarks/:id` (after the auth gate):
`findOneAndDelete({ _id: id, userId: req.user.userId })` — remove the
first document matching both the id and the owner; 404 with a single
message when there is none. -/
def deleteBookmark (db : DB) (id : String) (authUserId : String) :
    DeleteResult × DB :=
  match db.bookmarks.find? (fun b => b.id == id && b.userId == authUserId) with
  | none => (.notFound, db)
  | some _ =>
    (.deleted, { db with bookmarks :=
      db.bookmarks.eraseP (fun b => b.id == id && b.userId == authUserId) })

/-! ## Shared lemmas -/

theorem contains_eq_decide_mem {α : Type} [DecidableEq α] (l : List α) (a : α) :
    l.contains a = decide (a ∈ l) := by
  simp [List.contains]

/-- A refresh request whose token no stored user holds is rejected with
"invalid refresh token" and leaves the store unchanged. -/
theorem refresh_of_no_owner (env : Env) (now : Nat) (db : DB) (t : RefreshTok)
    (h : ∀ u ∈ db.users, t ∉ u.refreshTokens) :
    refresh env now db (some t) = (RefreshResult.invalidToken, db) := by
  have hf : db.users.find? (fun u => u.refreshTokens.contains t) = none := by
    rw [List.find?_eq_none]
    intro u hu
    simp only [contains_eq_decide_mem, decide_eq_true_eq]
    exact h u hu
  simp only [refresh]
  rw [hf]

/-- After saving a user, looking any user with the same id up finds the
saved document. -/
theorem find?_map_replace (l : List User) (u : User)
    (h : ∃ v ∈ l, v.id = u.id) :
    (l.map (fun v => if v.id = u.id then u else v)).find?
      (fun w => w.id == u.id) = some u := by
  induction l with
  | nil => obtain ⟨v, hv, _⟩ := h; exact absurd hv (List.not_mem_nil v)
  | cons v l ih =>
    by_cases hv : v.id = u.id
    · simp [List.find?_cons, hv]
    · simp only [List.map_cons, if_neg hv, List.find?_cons]
      have hb : (v.id == u.id) = false := by simp [hv]
      rw [hb]
      apply ih
      obtain ⟨w, hw, hwid⟩ := h
      rcases List.mem_cons.mp hw with rfl | hw2
      · exact absurd hwid hv
      · exact ⟨w, hw2, hwid⟩

/-! ## C1 and C5: the refresh flow -/

/-- C1: a refresh request whose token string is not present in any user's
stored refresh-token collection fails with "invalid refresh token" (403),
issues no access token and leaves the store unchanged — whether or not the
token is correctly signed and unexpired. -/
theorem refresh_unknown_token_rejected (env : Env) (now : Nat) (db : DB)
    (t : RefreshTok) (h : ∀ u ∈ db.users, t ∉ u.refreshTokens) :
    (refresh env now db (some t)).1 = RefreshResult.invalidToken ∧
    refreshStatus (refresh env now db (some t)).1 = 403 ∧
    (∀ a, (refresh env now db (some t)).1 ≠ RefreshResult.ok a) ∧
    (refresh env now db (some t)).2 = db := by
  rw [refresh_of_no_owner env now db t h]
  exact ⟨rfl, rfl, fun a ha => RefreshResult.noConfusion ha, rfl⟩

/-- The environment of the concrete test store: both secrets configured. -/
def envW : Env := { jwtSecret := some "acc-secret",
                    refreshSecret := some "ref-secret" }

/-- A user of the concrete test store, holding no refresh token. -/
def alice : User := { id := "u1", username := "alice",
                      email := "alice@example.com",
                      password := bcryptHash "alpine-watch" 3,
                      refreshTokens := [] }

/-- Concrete test store for the refresh claims. -/
def dbW : DB := { users := [alice], bookmarks := [] }

/-- A refresh token correctly signed for `alice` with the refresh secret
and unexpired at time 0 — but never issued, so stored nowhere. -/
def ghostTok : RefreshTok := { userId := "u1", secret := "ref-secret",
                               exp := 10080 }

/-- C1 witness: the ghost token is well-signed and unexpired, yet refresh
rejects it with 403 and no access token. -/
theorem refresh_unknown_token_rejected_witness :
    verifyRefreshToken envW.refreshSecret 0 ghostTok = true ∧
    ((refresh envW 0 dbW (some ghostTok)).1 = RefreshResult.invalidToken ∧
     refreshStatus (refresh envW 0 dbW (some ghostTok)).1 = 403 ∧
     (∀ a, (refresh envW 0 dbW (some ghostTok)).1 ≠ RefreshResult.ok a) ∧
     (refresh envW 0 dbW (some ghostTok)).2 = dbW) :=
  ⟨by decide, refresh_unknown_token_rejected envW 0 dbW ghostTok (by decide)⟩

/-- C5: the refresh route never mutates the store — in particular the
owning user's refresh-token collection is not rotated, trimmed or
extended — and a successful response carries exactly an access token
freshly generated for a stored user. -/
theorem refresh_frame (env : Env) (now : Nat) (db : DB)
    (body : Option RefreshTok) :
    (refresh env now db body).2 = db ∧
    (∀ a, (refresh env now db body).1 = RefreshResult.ok a →
      ∃ u ∈ db.users, generateAccessToken env now u = Except.ok a) := by
  constructor
  · cases body with
    | none => rfl
    | some rt =>
      simp only [refresh]
      cases db.users.find? (fun u => u.refreshTokens.contains rt) with
      | none => rfl
      | some u =>
        by_cases hv : verifyRefreshToken env.refreshSecret now rt
        · simp only [if_pos hv]
          cases generateAccessToken env now u <;> rfl
        · simp only [if_neg hv]
  · intro a ha
    cases body with
    | none => exact absurd ha (fun hc => RefreshResult.noConfusion hc)
    | some rt =>
      simp only [refresh] at ha
      split at ha
      · exact absurd ha (fun hc => RefreshResult.noConfusion hc)
      · rename_i u hfind
        split at ha
        · split at ha
          · exact absurd ha (fun hc => RefreshResult.noConfusion hc)
          · rename_i a0 hgen
            have he : a0 = a := RefreshResult.ok.inj ha
            exact ⟨u, List.mem_of_find?_eq_some hfind, he ▸ hgen⟩
        · exact absurd ha (fun hc => RefreshResult.noConfusion hc)

/-! ## C2: global password-uniqueness at signup -/

/-- Past the duplicate-credentials check, a password hash-matching any
stored user's hash is rejected by the scan, with the store untouched. -/
theorem signupCont_reused (env : Env) (now salt : Nat) (newId : String)
    (db : DB) (username email password : String)
    (h : ∃ u ∈ db.users, bcryptCompare password u.password = true) :
    signupCont env now salt newId db username email password =
      (SignupResult.passwordUsed, db) := by
  have hany : db.users.any (fun u => bcryptCompare password u.password) = true := by
    rw [List.any_eq_true]
    obtain ⟨u, hu, hc⟩ := h
    exact ⟨u, hu, hc⟩
  unfold signupCont
  rw [if_pos hany]

/-- C2: a signup whose plaintext password hash-matches the stored hash of
any existing user — whatever the username and email — answers with a 400
validation error and creates no user record. -/
theorem signup_reused_password_rejected (env : Env) (now salt : Nat)
    (newId : String) (db : DB) (username email password : String)
    (h : ∃ u ∈ db.users, bcryptCompare password u.password = true) :
    signupStatus (signup env now salt newId db username email password).1 = 400 ∧
    (signup env now salt newId db username email password).2 = db := by
  have hcont := signupCont_reused env now salt newId db username email password h
  unfold signup
  split
  · exact ⟨rfl, rfl⟩
  · split
    · split
      · exact ⟨rfl, rfl⟩
      · split
        · exact ⟨rfl, rfl⟩
        · rw [hcont]; exact ⟨rfl, rfl⟩
    · rw [hcont]; exact ⟨rfl, rfl⟩

/-- C2 witness: `bob` signs up with fresh username and email but with
`alice`'s password; signup answers 400 and stores nothing. -/
theorem signup_reused_password_rejected_witness :
    (∃ u ∈ dbW.users, bcryptCompare "alpine-watch" u.password = true) ∧
    (signupStatus (signup envW 0 7 "u2" dbW "bob" "bob@example.com"
        "alpine-watch").1 = 400 ∧
     (signup envW 0 7 "u2" dbW "bob" "bob@example.com" "alpine-watch").2 = dbW) :=
  ⟨by decide, signup_reused_password_rejected envW 0 7 "u2" dbW "bob"
    "bob@example.com" "alpine-watch" (by decide)⟩

/-! ## C3: the logout route and duplicate refresh tokens -/

/-- A refresh token stored twice by its owner. -/
def dupTok : RefreshTok := { userId := "u3", secret := "ref-secret",
                             exp := 10080 }

/-- A user holding two copies of the same token string (the data model
permits duplicates). -/
def carol : User := { id := "u3", username := "carol",
                      email := "carol@example.com",
                      password := bcryptHash "cobalt-fern" 5,
                      refreshTokens := [dupTok, dupTok] }

/-- Store for the duplicate-token logout scenario. -/
def dbDup : DB := { users := [carol], bookmarks := [] }

/-- C3 counterexample: with `[dupTok, dupTok]` stored, logout with
`dupTok` leaves the collection empty — not `[dupTok]`, as removing
exactly one matching entry (leaving the duplicate present) would. -/
theorem logout_duplicate_counterexample :
    (logout dbDup dupTok).1 = LogoutResult.ok ∧
    (logout dbDup dupTok).2.users = [{ carol with refreshTokens := [] }] ∧
    ∀ v ∈ (logout dbDup dupTok).2.users, v.refreshTokens ≠ [dupTok] := by
  decide

/-- C3 (amended): for the first user whose collection contains the token,
logout succeeds and persists that user with every copy of the given token
removed, the multiplicity of every other token untouched. -/
theorem logout_removes_every_copy (db : DB) (t : RefreshTok) (u : User)
    (h : db.users.find? (fun v => v.refreshTokens.contains t) = some u) :
    (logout db t).1 = LogoutResult.ok ∧
    ∃ l, (logout db t).2 = saveUser db { u with refreshTokens := l } ∧
      List.count t l = 0 ∧
      ∀ tk, tk ≠ t → List.count tk l = List.count tk u.refreshTokens := by
  have hl : logout db t = (LogoutResult.ok, saveUser db
      { u with refreshTokens := u.refreshTokens.filter (fun tk => tk != t) }) := by
    simp only [logout, h]
  rw [hl]
  refine ⟨rfl, u.refreshTokens.filter (fun tk => tk != t), rfl, ?_, ?_⟩
  · rw [List.count_eq_zero]
    intro hm
    have := (List.mem_filter.mp hm).2
    simp at this
  · intro tk htk
    exact List.count_filter (by simp [htk])

/-- Two distinct refresh tokens of one user, for the logout witness. -/
def tokA : RefreshTok := { userId := "u4", secret := "ref-secret",
                           exp := 10080 }

/-- Second, distinct token of the same user. -/
def tokB : RefreshTok := { userId := "u4", secret := "ref-secret",
                           exp := 20000 }

/-- A user with two concurrently-issued distinct tokens. -/
def dave : User := { id := "u4", username := "dave",
                     email := "dave@example.com",
                     password := bcryptHash "dune-maple" 2,
                     refreshTokens := [tokA, tokB] }

/-- Store for the logout witness. -/
def dbLogout : DB := { users := [dave], bookmarks := [] }

/-- C3 witness: logging `tokA` out keeps `tokB`'s multiplicity and drops
`tokA`'s to zero. -/
theorem logout_removes_every_copy_witness :
    (logout dbLogout tokA).1 = LogoutResult.ok ∧
    ∃ l, (logout dbLogout tokA).2 = saveUser dbLogout
        { dave with refreshTokens := l } ∧
      List.count tokA l = 0 ∧
      ∀ tk, tk ≠ tokA → List.count tk l = List.count tk dave.refreshTokens :=
  logout_removes_every_copy dbLogout tokA dave (by decide)

/-! ## C4: logout-all -/

/-- C4: logout-all for an authenticated existing user succeeds, persists
that user with an empty refresh-token collection, and a subsequent
refresh with any token the user previously held fails with "invalid
refresh token" (assuming, as issuance guarantees, that no other user's
collection holds the same string). -/
theorem logoutAll_clears_tokens (env : Env) (now : Nat) (db : DB)
    (uid : String) (u : User)
    (h : db.users.find? (fun v => v.id == uid) = some u) :
    (logoutAll db uid).1 = LogoutAllResult.ok ∧
    (∀ v ∈ (logoutAll db uid).2.users, v.id = uid → v.refreshTokens = []) ∧
    (∀ t ∈ u.refreshTokens,
      (∀ v ∈ db.users, v.id ≠ uid → t ∉ v.refreshTokens) →
      refresh env now (logoutAll db uid).2 (some t) =
        (RefreshResult.invalidToken, (logoutAll db uid).2)) := by
  have hid : u.id = uid := by
    have := List.find?_some h
    simpa using this
  have hl : logoutAll db uid = (LogoutAllResult.ok,
      saveUser db { u with refreshTokens := [] }) := by
    simp only [logoutAll, h]
  rw [hl]
  refine ⟨rfl, ?_, ?_⟩
  · intro v hv hveq
    obtain ⟨w, hw, hmap⟩ := List.mem_map.mp hv
    by_cases hwid : w.id = u.id
    · rw [if_pos hwid] at hmap
      rw [← hmap]
    · rw [if_neg hwid] at hmap
      rw [← hmap] at hveq
      exact absurd (hveq.trans hid.symm) hwid
  · intro t ht hother
    apply refresh_of_no_owner
    intro v hv
    obtain ⟨w, hw, hmap⟩ := List.mem_map.mp hv
    by_cases hwid : w.id = u.id
    · rw [if_pos hwid] at hmap
      rw [← hmap]
      exact List.not_mem_nil t
    · rw [if_neg hwid] at hmap
      rw [← hmap]
      exact hother w hw (fun hq => hwid (hq.trans hid.symm))

/-- A user holding one token, for the logout-all witness. -/
def erin : User := { id := "u5", username := "erin",
                     email := "erin@example.com",
                     password := bcryptHash "ember-lark" 4,
                     refreshTokens := [{ userId := "u5",
                                         secret := "ref-secret",
                                         exp := 10080 }] }

/-- Store for the logout-all witness. -/
def dbAll : DB := { users := [erin], bookmarks := [] }

/-- C4 witness: after erin's logout-all, her collection is empty and a
refresh with her previously stored token fails. -/
theorem logoutAll_clears_tokens_witness :
    (logoutAll dbAll "u5").1 = LogoutAllResult.ok ∧
    (∀ v ∈ (logoutAll dbAll "u5").2.users, v.id = "u5" →
      v.refreshTokens = []) ∧
    (∀ t ∈ erin.refreshTokens,
      (∀ v ∈ dbAll.users, v.id ≠ "u5" → t ∉ v.refreshTokens) →
      refresh envW 0 (logoutAll dbAll "u5").2 (some t) =
        (RefreshResult.invalidToken, (logoutAll dbAll "u5").2)) :=
  logoutAll_clears_tokens envW 0 dbAll "u5" erin (by decide)

/-! ## C6: delete-bookmark ownership -/

/-- Erasing the first match out of a list decomposed around it. -/
theorem eraseP_prefix_neg {α : Type} (p : α → Bool) (l₁ l₂ : List α) (b : α)
    (hneg : ∀ c ∈ l₁, ¬ p c) (hb : p b) :
    (l₁ ++ b :: l₂).eraseP p = l₁ ++ l₂ := by
  induction l₁ with
  | nil => simp [List.eraseP_cons_of_pos hb]
  | cons c l ih =>
    simp only [List.cons_append,
      List.eraseP_cons_of_neg (hneg c (List.mem_cons_self c l))]
    rw [ih (fun d hd => hneg d (List.mem_cons_of_mem c hd))]

/-- C6: delete-bookmark deletes exactly when some stored bookmark has the
given id and the authenticated user as owner; on success the store loses
the first such bookmark and nothing else; otherwise — whether the id does
not exist or belongs to another user — the store is unchanged and the
response is the single 404 message "Bookmark not found or unauthorized". -/
theorem deleteBookmark_owner_only (db : DB) (id uid : String) :
    ((deleteBookmark db id uid).1 = DeleteResult.deleted ↔
      ∃ b ∈ db.bookmarks, b.id = id ∧ b.userId = uid) ∧
    ((deleteBookmark db id uid).1 = DeleteResult.notFound →
      (deleteBookmark db id uid).2 = db) ∧
    ((deleteBookmark db id uid).1 = DeleteResult.deleted →
      ∃ b l₁ l₂, b.id = id ∧ b.userId = uid ∧
        (∀ c ∈ l₁, ¬(c.id = id ∧ c.userId = uid)) ∧
        db.bookmarks = l₁ ++ b :: l₂ ∧
        (deleteBookmark db id uid).2.bookmarks = l₁ ++ l₂) ∧
    deleteStatus DeleteResult.notFound = 404 ∧
    deleteMessage DeleteResult.notFound = "Bookmark not found or unauthorized" := by
  cases hf : db.bookmarks.find? (fun b => b.id == id && b.userId == uid) with
  | none =>
    have hd : deleteBookmark db id uid = (DeleteResult.notFound, db) := by
      simp only [deleteBookmark, hf]
    rw [hd]
    refine ⟨?_, fun _ => rfl, ?_, rfl, rfl⟩
    · constructor
      · intro hc; exact absurd hc (fun hc => DeleteResult.noConfusion hc)
      · intro hc
        obtain ⟨b, hb, hbid, hbuid⟩ := hc
        have := List.find?_eq_none.mp hf b hb
        simp [hbid, hbuid] at this
    · intro hc; exact absurd hc (fun hc => DeleteResult.noConfusion hc)
  | some b0 =>
    have hd : deleteBookmark db id uid = (DeleteResult.deleted,
        { db with bookmarks :=
          db.bookmarks.eraseP (fun b => b.id == id && b.userId == uid) }) := by
      simp only [deleteBookmark, hf]
    rw [hd]
    obtain ⟨hp, l₁, l₂, heq, hneg⟩ := List.find?_eq_some.mp hf
    have hpb : b0.id = id ∧ b0.userId = uid := by
      simpa using hp
    refine ⟨?_, ?_, ?_, rfl, rfl⟩
    · exact ⟨fun _ => ⟨b0, List.mem_of_find?_eq_some hf, hpb⟩, fun _ => rfl⟩
    · intro hc; exact absurd hc (fun hc => DeleteResult.noConfusion hc)
    · intro _
      refine ⟨b0, l₁, l₂, hpb.1, hpb.2, ?_, heq, ?_⟩
      · intro c hc hcp
        have := hneg c hc
        simp [hcp.1, hcp.2] at this
      · show db.bookmarks.eraseP (fun b => b.id == id && b.userId == uid) = l₁ ++ l₂
        rw [heq]
        refine eraseP_prefix_neg (fun b => b.id == id && b.userId == uid) l₁ l₂ b0
          (fun c hc => ?_) hp
        have h1 : (c.id == id && c.userId == uid) = false := by
          have := hneg c hc
          rwa [Bool.not_eq_true'] at this
        simp [h1]

/-! ## C7: the auth gate -/

/-- C7: the auth gate never touches the store; it answers 401 when the
`Authorization` header yields no bearer token, 403 when the token fails
verification, and otherwise attaches the decoded `{ userId, email }` and
lets the request proceed. -/
theorem authGate_trichotomy (env : Env) (now : Nat) (db : DB)
    (header : Option String) :
    (authenticateUser env now db header).2 = db ∧
    (extractBearerToken header = none →
      (authenticateUser env now db header).1 = AuthResult.noToken ∧
      authStatus (authenticateUser env now db header).1 = some 401) ∧
    (∀ s, extractBearerToken header = some s →
      verifyAccessToken env.jwtSecret now s = none →
      (authenticateUser env now db header).1 = AuthResult.invalidToken ∧
      authStatus (authenticateUser env now db header).1 = some 403) ∧
    (∀ s uid em, extractBearerToken header = some s →
      verifyAccessToken env.jwtSecret now s = some (uid, em) →
      (authenticateUser env now db header).1 = AuthResult.authenticated uid em ∧
      authStatus (authenticateUser env now db header).1 = none) := by
  refine ⟨?_, ?_, ?_, ?_⟩
  · cases hx : extractBearerToken header with
    | none => simp only [authenticateUser, hx]
    | some s =>
      cases hv : verifyAccessToken env.jwtSecret now s with
      | none => simp only [authenticateUser, hx, hv]
      | some p =>
        obtain ⟨uid, em⟩ := p
        simp only [authenticateUser, hx, hv]
  · intro hx
    have : authenticateUser env now db header = (AuthResult.noToken, db) := by
      simp only [authenticateUser, hx]
    rw [this]; exact ⟨rfl, rfl⟩
  · intro s hx hv
    have : authenticateUser env now db header = (AuthResult.invalidToken, db) := by
      simp only [authenticateUser, hx, hv]
    rw [this]; exact ⟨rfl, rfl⟩
  · intro s uid em hx hv
    have : authenticateUser env now db header =
        (AuthResult.authenticated uid em, db) := by
      simp only [authenticateUser, hx, hv]
    rw [this]; exact ⟨rfl, rfl⟩

/-! ## C9: list-bookmarks ordering -/

/-- Insertion on an all-missing key appends: no document compares
strictly greater than another. -/
theorem insertByCreatedAtDesc_append (b : Bookmark) (l : List Bookmark) :
    insertByCreatedAtDesc b l = l ++ [b] := by
  induction l with
  | nil => rfl
  | cons c l ih =>
    simp only [insertByCreatedAtDesc, createdAt, createdAtGt, ih,
      List.cons_append]
    rfl

/-- Sorting on the absent `createdAt` key leaves the store order. -/
theorem sortByCreatedAtDesc_eq_self (l : List Bookmark) :
    sortByCreatedAtDesc l = l := by
  suffices h : ∀ acc, l.foldl (fun acc b => insertByCreatedAtDesc b acc) acc
      = acc ++ l by
    simpa using h []
  induction l with
  | nil => intro acc; simp
  | cons b l ih =>
    intro acc
    rw [List.foldl_cons, ih (insertByCreatedAtDesc b acc),
      insertByCreatedAtDesc_append, List.append_assoc, List.singleton_append]

/-- A bookmark created first (stored earlier). -/
def bmA : Bookmark := { id := "b1", title := "older", url := "http://a.example",
                        category := "read", tags := [], notes := "",
                        userId := "u1" }

/-- A bookmark the same user creates later (appended after `bmA`). -/
def bmB : Bookmark := { id := "b2", title := "newer", url := "http://b.example",
                        category := "read", tags := [], notes := "",
                        userId := "u1" }

/-- Store with `bmA` created before `bmB` (creation appends, so store
order is creation order). -/
def dbList : DB := { users := [alice], bookmarks := [bmA, bmB] }

/-- C9: the schema records no `createdAt` (no `timestamps` option), so
`.sort({ createdAt: -1 })` compares only missing values and the route
returns the owner's bookmarks in store order — oldest first, not the
claimed newest-first order. -/
theorem listBookmarks_not_newest_first :
    createdAt bmA = none ∧ createdAt bmB = none ∧
    listBookmarks dbList "u1" = [bmA, bmB] ∧
    [bmA, bmB] ≠ [bmB, bmA] := by
  refine ⟨rfl, rfl, ?_, by decide⟩
  rw [show listBookmarks dbList "u1" = sortByCreatedAtDesc
    (dbList.bookmarks.filter (fun b => b.userId == "u1")) from rfl,
    sortByCreatedAtDesc_eq_self]
  decide

/-! ## C10: bookmark owner comes from the access token -/

/-- C10: whatever the request body holds — including a `userId` field of
its own — the created bookmark's owner is the authenticated user's id,
the bookmark is appended to the store and the users are untouched. -/
theorem createBookmark_owner_from_token (db : DB) (newId authUserId : String)
    (body : List (String × JVal)) :
    (∃ r, createBookmark db newId authUserId body = some r) ∧
    (∀ b db2, createBookmark db newId authUserId body = some (b, db2) →
      b.userId = authUserId ∧ db2.users = db.users ∧
      db2.bookmarks = db.bookmarks ++ [b]) := by
  have hget : objGet (body ++ [("userId", JVal.oid authUserId)]) "userId" =
      some (JVal.oid authUserId) := by
    unfold objGet
    rw [List.reverse_append]
    simp [List.find?_cons]
  have hoid : getOid (body ++ [("userId", JVal.oid authUserId)]) "userId" =
      some authUserId := by
    simp only [getOid, hget]
  constructor
  · simp only [createBookmark, bookmarkFromObj, hoid, Option.map_some']
    exact ⟨_, rfl⟩
  · intro b db2 hc
    simp only [createBookmark, bookmarkFromObj, hoid, Option.map_some'] at hc
    injection hc with h
    injection h with hb hdb
    subst hb
    subst hdb
    exact ⟨rfl, rfl, rfl⟩

/-! ## C8: login issues an accepted access token and a stored refresh token -/

/-- A character other than the separator, `'I'` and the token's own field
characters never occurs in the wire encoding. -/
theorem not_mem_encode (c : Char) (t : AccessTok)
    (h1 : c ∉ t.userId.data) (h2 : c ∉ t.email.data) (h3 : c ∉ t.secret.data)
    (hsep : c ≠ sepChar) (hI : c ≠ 'I') :
    c ∉ (encodeAccessToken t).data := by
  intro hm
  have hm' : c ∈ t.userId.data ++ sepChar :: (t.email.data ++ sepChar ::
      (t.secret.data ++ sepChar :: natUnary t.exp)) := hm
  rcases List.mem_append.mp hm' with h | h
  · exact h1 h
  · rcases List.mem_cons.mp h with h | h
    · exact hsep h
    · rcases List.mem_append.mp h with h | h
      · exact h2 h
      · rcases List.mem_cons.mp h with h | h
        · exact hsep h
        · rcases List.mem_append.mp h with h | h
          · exact h3 h
          · rcases List.mem_cons.mp h with h | h
            · exact hsep h
            · exact hI (List.eq_of_mem_replicate h)

/-- The auth gate's header parsing recovers a space-free encoded token
from a well-formed `Bearer` header. -/
theorem extractBearerToken_bearer (t : AccessTok)
    (h : ' ' ∉ (encodeAccessToken t).data) :
    extractBearerToken (some ("Bearer " ++ encodeAccessToken t)) =
      some (encodeAccessToken t) := by
  have hdata : ("Bearer " ++ encodeAccessToken t).data =
      "Bearer".data ++ ' ' :: (encodeAccessToken t).data := by
    rw [String.data_append,
      show "Bearer ".data = "Bearer".data ++ [' '] from by decide,
      List.append_assoc, List.singleton_append]
  have hne : (encodeAccessToken t).data ≠ [] := by
    show t.userId.data ++ sepChar :: (t.email.data ++ sepChar ::
      (t.secret.data ++ sepChar :: natUnary t.exp)) ≠ []
    simp
  have hsplit : splitOnChar ' ' ("Bearer " ++ encodeAccessToken t).data =
      ["Bearer".data, (encodeAccessToken t).data] := by
    rw [hdata, splitOnChar_append ' ' _ _ (by decide),
      splitOnChar_of_not_mem ' ' _ h]
  show (match (splitOnChar ' ' ("Bearer " ++ encodeAccessToken t).data).get? 1 with
    | none => none
    | some tk => if tk = [] then none else some (String.mk tk)) =
    some (encodeAccessToken t)
  rw [hsplit]
  show (if (encodeAccessToken t).data = [] then none
    else some (String.mk (encodeAccessToken t).data)) = some (encodeAccessToken t)
  rw [if_neg hne]

/-- C8: a login with an existing email and the matching password answers
with an access token that the auth gate accepts (decoding the very
identity of the user) and a refresh token that the persisted user record
holds immediately after.  The three `∉` hypotheses say that the user id,
email and access secret contain neither the wire separator nor a space —
true of every real ObjectId, email and secret. -/
theorem login_issues_accepted_tokens (env : Env) (now : Nat) (db : DB)
    (email password : String) (u : User) (ks kr : String)
    (hu : db.users.find? (fun v => v.email == email) = some u)
    (hp : bcryptCompare password u.password = true)
    (hks : env.jwtSecret = some ks)
    (hkr : env.refreshSecret = some kr)
    (hid : sepChar ∉ u.id.data ∧ ' ' ∉ u.id.data)
    (hem : sepChar ∉ u.email.data ∧ ' ' ∉ u.email.data)
    (hsec : sepChar ∉ ks.data ∧ ' ' ∉ ks.data) :
    ∃ a rt db2,
      login env now db email password = (LoginResult.ok a rt, db2) ∧
      (authenticateUser env now db2
          (some ("Bearer " ++ encodeAccessToken a))).1 =
        AuthResult.authenticated u.id u.email ∧
      ∃ v, db2.users.find? (fun w => w.id == u.id) = some v ∧
        rt ∈ v.refreshTokens := by
  refine ⟨{ userId := u.id, email := u.email, secret := ks, exp := now + 15 },
          { userId := u.id, secret := kr, exp := now + 10080 },
          saveUser db { u with refreshTokens := u.refreshTokens ++
            [{ userId := u.id, secret := kr, exp := now + 10080 }] },
          ?_, ?_, ?_⟩
  · simp only [login, hu, hp, Bool.not_true, generateAccessToken, hks,
      generateRefreshToken, hkr, Bool.false_eq_true, if_false]
  · have hsp : ' ' ∉ (encodeAccessToken
        { userId := u.id, email := u.email, secret := ks,
          exp := now + 15 }).data :=
      not_mem_encode ' ' _ hid.2 hem.2 hsec.2 (by decide) (by decide)
    have hver : verifyAccessToken env.jwtSecret now (encodeAccessToken
        { userId := u.id, email := u.email, secret := ks,
          exp := now + 15 }) = some (u.id, u.email) := by
      rw [hks]
      show (match decodeAccessToken (encodeAccessToken
          ⟨u.id, u.email, ks, now + 15⟩) with
        | none => none
        | some t => if t.secret = ks ∧ now < t.exp then
            some (t.userId, t.email) else none) = some (u.id, u.email)
      rw [decode_encode (⟨u.id, u.email, ks, now + 15⟩ : AccessTok)
        hid.1 hem.1 hsec.1]
      show (if ks = ks ∧ now < now + 15 then some (u.id, u.email) else none) =
        some (u.id, u.email)
      rw [if_pos ⟨rfl, by omega⟩]
    simp only [authenticateUser, extractBearerToken_bearer _ hsp, hver]
  · refine ⟨{ u with refreshTokens := u.refreshTokens ++
      [{ userId := u.id, secret := kr, exp := now + 10080 }] }, ?_, ?_⟩
    · exact find?_map_replace db.users
        { u with refreshTokens := u.refreshTokens ++
          [{ userId := u.id, secret := kr, exp := now + 10080 }] }
        ⟨u, List.mem_of_find?_eq_some hu, rfl⟩
    · simp

/-- The user of the login witness, holding no token yet. -/
def frank : User := { id := "u6", username := "frank",
                      email := "frank@example.com",
                      password := bcryptHash "foxglove" 6,
                      refreshTokens := [] }

/-- Store for the login witness. -/
def dbLogin : DB := { users := [frank], bookmarks := [] }

/-- C8 witness: frank's login yields an access token the auth gate
accepts and a refresh token present in his persisted collection. -/
theorem login_issues_accepted_tokens_witness :
    ∃ a rt db2,
      login envW 0 dbLogin "frank@example.com" "foxglove" =
        (LoginResult.ok a rt, db2) ∧
      (authenticateUser envW 0 db2
          (some ("Bearer " ++ encodeAccessToken a))).1 =
        AuthResult.authenticated frank.id frank.email ∧
      ∃ v, db2.users.find? (fun w => w.id == frank.id) = some v ∧
        rt ∈ v.refreshTokens :=
  login_issues_accepted_tokens envW 0 dbLogin "frank@example.com" "foxglove"
    frank "acc-secret" "ref-secret" (by decide) (by decide) rfl rfl
    (by decide) (by decide) (by decide)

end MarkVault
